import Mathlib

/-!
Shallow embedding of the proximo consume stream bridge
(`consumeServer.Consume` and its three tasks), together with the
wire-level data model it manipulates.  Each concurrent task is embedded
as a pure function over an explicit trace of the external events it can
observe at its suspension points: results of `stream.Recv`, outcomes of
channel `select`s against `ctx.Done()`, results of `stream.Send`, and
cancellation observations.  The external coordination-group library
(`gogroup`) and the context/status libraries are not part of the
repository source; the few facts about them that the bridge relies on
are modelled from the specification and marked as such.
-/

/-- Modelled from the spec: the initial offset enumeration carried by a
StartRequest (`OLDEST / NEWEST / EXPLICIT-with-value`); the proto
definition is external to the inspected source and opaque to the bridge. -/
inductive Offset where
  | oldest
  | newest
  | explicit (v : Nat)
deriving DecidableEq

/-- Wire `Message`: opaque payload plus a correlation identifier. -/
structure Message where
  id : String
  payload : String
deriving DecidableEq

/-- Wire `Confirmation`: identifier of a previously delivered message. -/
structure Confirmation where
  msgID : String
deriving DecidableEq

/-- Wire `StartConsumeRequest`: topic, consumer name and initial offset. -/
structure StartConsumeRequest where
  topic : String
  consumer : String
  initialOffset : Offset
deriving DecidableEq

/-- Inbound envelope of the consume direction: a protobuf union whose
`GetStartRequest` / `GetConfirmation` accessors yield `none` for the
unset variant. -/
structure ConsumerRequest where
  startRequest : Option StartConsumeRequest
  confirmation : Option Confirmation
deriving DecidableEq

/-- Status codes used by the bridge (subset of the gRPC code space). -/
inductive Code where
  | ok
  | canceled
  | invalidArgument
  | deadlineExceeded
deriving DecidableEq

/-- Printable name of a status code, as used in a status error text. -/
def Code.text : Code → String
  | .ok => "OK"
  | .canceled => "Canceled"
  | .invalidArgument => "InvalidArgument"
  | .deadlineExceeded => "DeadlineExceeded"

/-- Go error values as the bridge distinguishes them: status errors
(`status.Error(code, msg)`), the `io.EOF` sentinel, the
`context.Canceled` and `context.DeadlineExceeded` sentinels, and opaque
errors known only by their message text. -/
inductive GoError where
  | statusErr (code : Code) (msg : String)
  | eofErr
  | ctxCanceled
  | ctxDeadlineExceeded
  | other (msg : String)
deriving DecidableEq

/-- The `Error()` text of a Go error value. -/
def GoError.errText : GoError → String
  | .statusErr c m => "rpc error: code = " ++ c.text ++ " desc = " ++ m
  | .eofErr => "EOF"
  | .ctxCanceled => "context canceled"
  | .ctxDeadlineExceeded => "context deadline exceeded"
  | .other m => m

/-- `strings.HasSuffix`, over the character lists of the two strings. -/
def goHasSuffix (s pat : String) : Bool :=
  pat.data.isSuffixOf s.data

/-- `errStartedTwice` from the source. -/
def errStartedTwice : GoError :=
  .statusErr .invalidArgument "consumption already started"

/-- `errInvalidConfirm` from the source. -/
def errInvalidConfirm : GoError :=
  .statusErr .invalidArgument "invalid confirmation"

/-- `errNotConnected` from the source. -/
def errNotConnected : GoError :=
  .statusErr .invalidArgument "not connected to a topic"

/-- `errInvalidRequest` from the source. -/
def errInvalidRequest : GoError :=
  .statusErr .invalidArgument "invalid consumer request - this is possibly a bug in your client library"

/-- `consumerConfig` from the source. -/
structure consumerConfig where
  consumer : String
  topic : String
  offset : Offset
deriving DecidableEq

/-- The assignment of StartRequest fields into a `consumerConfig`
performed by the handler-invoker task (source lines 105-107). -/
def mkConsumerConfig (sr : StartConsumeRequest) : consumerConfig :=
  { consumer := sr.consumer, topic := sr.topic, offset := sr.initialOffset }

/-- One observation of the reader task: either `stream.Recv` returned an
error, or it returned an envelope; in the latter case `delivered`
records which branch of the subsequent channel `select` (if the
dispatch reaches one) fires: `true` for the channel send completing,
`false` for `ctx.Done()`. -/
inductive RecvEvent where
  | recvErr (e : GoError)
  | recvMsg (m : ConsumerRequest) (delivered : Bool)
deriving DecidableEq

/-- Result of running the reader task over a trace: `result = none`
means the trace was exhausted with the loop still running; otherwise
`result = some r` is the task's returned error value (`r = none` for a
`nil` return).  `starts` and `confirms` record, in order, the values the
task actually delivered onto the `startRequest` and `confirmRequest`
channels. -/
structure ReaderOut where
  result : Option (Option GoError)
  starts : List StartConsumeRequest
  confirms : List Confirmation
deriving DecidableEq

/-- The reader task (source lines 45-82): loop of `stream.Recv`, EOF and
`context canceled`-text checks, then the dispatch switch over the
envelope variant with the `started` flag, each channel send raced
against `ctx.Done()`. -/
def readerRun : Bool → List RecvEvent → ReaderOut
  | _, [] => ⟨none, [], []⟩
  | _, .recvErr e :: _ =>
    if e = .eofErr then ⟨some none, [], []⟩
    else if goHasSuffix e.errText "context canceled" then ⟨some none, [], []⟩
    else ⟨some (some e), [], []⟩
  | started, .recvMsg m d :: rest =>
    match m.startRequest with
    | some sr =>
      match started with
      | true => ⟨some (some errStartedTwice), [], []⟩
      | false =>
        if d then
          let o := readerRun true rest
          ⟨o.result, sr :: o.starts, o.confirms⟩
        else ⟨some none, [], []⟩
    | none =>
      match m.confirmation with
      | some c =>
        match started with
        | false => ⟨some (some errInvalidConfirm), [], []⟩
        | true =>
          if d then
            let o := readerRun true rest
            ⟨o.result, o.starts, c :: o.confirms⟩
          else ⟨some none, [], []⟩
      | none => ⟨some (some errInvalidRequest), [], []⟩

/-- One observation of the writer task's `select`: either a message
arrived on the `forClient` channel (with the result of the subsequent
`stream.Send`), or `ctx.Done()` fired. -/
inductive WriterEvent where
  | gotMsg (m : Message) (sendErr : Option GoError)
  | ctxDone
deriving DecidableEq

/-- Result of running the writer task over a trace: `result` as in
`ReaderOut`; `sent` records, in order, the messages successfully
written to the network stream. -/
structure WriterOut where
  result : Option (Option GoError)
  sent : List Message
deriving DecidableEq

/-- The writer task (source lines 84-99): `select` on `forClient`
against `ctx.Done()`; on a message, `stream.Send` with the
`context canceled`-text check on failure. -/
def writerRun : List WriterEvent → WriterOut
  | [] => ⟨none, []⟩
  | .ctxDone :: _ => ⟨some none, []⟩
  | .gotMsg m sendErr :: rest =>
    match sendErr with
    | some e =>
      if goHasSuffix e.errText "context canceled" then ⟨some none, []⟩
      else ⟨some (some e), []⟩
    | none =>
      let o := writerRun rest
      ⟨o.result, m :: o.sent⟩

/-- The observation resolving the handler-invoker task's initial
`select`: either the StartRequest arrived on its channel, or
`ctx.Done()` fired. -/
inductive InvokerEvent where
  | gotStart (sr : StartConsumeRequest)
  | ctxDone
deriving DecidableEq

/-- Result of the handler-invoker task: its returned error value, and
the config it passed to `HandleConsume` (`none` when the handler was
never invoked). -/
structure InvokerOut where
  result : Option GoError
  invokedWith : Option consumerConfig

/-- The handler-invoker task (source lines 101-113): block for the
StartRequest or cancellation; on cancellation return `nil` without
invoking the handler; otherwise build the `consumerConfig` and return
`HandleConsume`'s result verbatim.  The handler is embedded as a
function from the config it receives to its returned error. -/
def invokerRun (handler : consumerConfig → Option GoError) : InvokerEvent → InvokerOut
  | .gotStart sr => ⟨handler (mkConsumerConfig sr), some (mkConsumerConfig sr)⟩
  | .ctxDone => ⟨none, none⟩

/-- Modelled from the spec: `Wait` of the external Coordination Group
(`gogroup`) blocks until all tasks have returned and reports the first
non-nil error among the task results, `nil` when every task returned
`nil`.  The argument lists the task results in spawn order: reader,
writer, handler-invoker. -/
def gWait : List (Option GoError) → Option GoError
  | [] => none
  | some e :: _ => some e
  | none :: rest => gWait rest

/-- The exit rule of `Consume` (source lines 115-122): a group error is
returned as-is; otherwise if `sCtx.Err()` is the `context.Canceled`
sentinel, a Canceled-class status error carrying its text is returned;
otherwise `sCtx.Err()` itself (possibly `nil`) is returned. -/
def consumeExit (gErr ctxErr : Option GoError) : Option GoError :=
  match gErr with
  | some e => some e
  | none =>
    if ctxErr = some .ctxCanceled then
      some (.statusErr .canceled GoError.ctxCanceled.errText)
    else ctxErr

/-- A whole `Consume` call, given the three tasks' event traces and the
terminal value of the stream context's `Err()`.  Yields `none` when the
reader or writer trace is exhausted before that task returned (the
session is still live); otherwise `some` of the value `Consume`
returns. -/
def consumeRun (handler : consumerConfig → Option GoError)
    (re : List RecvEvent) (we : List WriterEvent) (ie : InvokerEvent)
    (ctxErr : Option GoError) : Option (Option GoError) :=
  match (readerRun false re).result, (writerRun we).result with
  | some r1, some r2 =>
    some (consumeExit (gWait [r1, r2, (invokerRun handler ie).result]) ctxErr)
  | _, _ => none

/-- Recv-error values occurring in a reader trace. -/
def recvErrorsOf : List RecvEvent → List GoError
  | [] => []
  | .recvErr e :: rest => e :: recvErrorsOf rest
  | .recvMsg _ _ :: rest => recvErrorsOf rest

/-- Send-error values occurring in a writer trace. -/
def sendErrorsOf : List WriterEvent → List GoError
  | [] => []
  | .gotMsg _ (some e) :: rest => e :: sendErrorsOf rest
  | .gotMsg _ none :: rest => sendErrorsOf rest
  | .ctxDone :: rest => sendErrorsOf rest

/-- A reader-trace segment consisting only of delivered Confirmation
envelopes (the steady state of an active session). -/
def confirmOnly : List RecvEvent → Bool
  | [] => true
  | .recvMsg ⟨none, some _⟩ true :: rest => confirmOnly rest
  | _ => false

/-- The confirmations carried by a confirmation-only trace segment. -/
def confirmsOf : List RecvEvent → List Confirmation
  | [] => []
  | .recvMsg ⟨none, some c⟩ true :: rest => c :: confirmsOf rest
  | _ :: rest => confirmsOf rest

/-! ## Helper lemmas -/

/-- Running the reader in the active state through a confirmation-only
segment forwards each confirmation in order and then continues. -/
theorem readerRun_confirmOnly_append (mid tail : List RecvEvent)
    (h : confirmOnly mid = true) :
    readerRun true (mid ++ tail) =
      ⟨(readerRun true tail).result, (readerRun true tail).starts,
        confirmsOf mid ++ (readerRun true tail).confirms⟩ := by
  induction mid with
  | nil => simp [confirmsOf]
  | cons ev rest ih =>
    rcases ev with e | ⟨⟨s, c⟩, d⟩
    · simp [confirmOnly] at h
    · rcases s with _ | sr
      · rcases c with _ | cv
        · simp [confirmOnly] at h
        · rcases d with _ | _
          · simp [confirmOnly] at h
          · simp only [confirmOnly] at h
            simp [readerRun, confirmsOf, ih h]
      · simp [confirmOnly] at h

/-- Any non-nil error returned by the reader task is either a recv
error from its trace or one of the three protocol-violation errors. -/
theorem readerRun_error_source (b : Bool) (re : List RecvEvent) (e : GoError)
    (h : (readerRun b re).result = some (some e)) :
    e ∈ recvErrorsOf re ∨ e = errStartedTwice ∨ e = errInvalidConfirm ∨
      e = errInvalidRequest := by
  induction re generalizing b with
  | nil => simp [readerRun] at h
  | cons ev rest ih =>
    rcases ev with e2 | ⟨⟨s, c⟩, d⟩
    · by_cases h1 : e2 = GoError.eofErr
      · simp [readerRun, h1] at h
      · by_cases h2 : goHasSuffix e2.errText "context canceled" = true
        · simp [readerRun, h1, h2] at h
        · simp [readerRun, h1, h2] at h
          exact Or.inl (by simp [recvErrorsOf, h])
    · rcases s with _ | sr
      · rcases c with _ | cv
        · simp [readerRun] at h
          tauto
        · rcases b with _ | _
          · simp [readerRun] at h
            tauto
          · rcases d with _ | _
            · simp [readerRun] at h
            · simp [readerRun] at h
              rcases ih true h with hm | hrest
              · exact Or.inl (by simp [recvErrorsOf, hm])
              · exact Or.inr hrest
      · rcases b with _ | _
        · rcases d with _ | _
          · simp [readerRun] at h
          · simp [readerRun] at h
            rcases ih true h with hm | hrest
            · exact Or.inl (by simp [recvErrorsOf, hm])
            · exact Or.inr hrest
        · simp [readerRun] at h
          tauto

/-- Any non-nil error returned by the writer task is a send error from
its trace. -/
theorem writerRun_error_source (we : List WriterEvent) (e : GoError)
    (h : (writerRun we).result = some (some e)) : e ∈ sendErrorsOf we := by
  induction we with
  | nil => simp [writerRun] at h
  | cons ev rest ih =>
    rcases ev with ⟨m, se⟩ | _
    · rcases se with _ | e2
      · simp [writerRun] at h
        simp [sendErrorsOf, ih h]
      · by_cases h2 : goHasSuffix e2.errText "context canceled" = true
        · simp [writerRun, h2] at h
        · simp [writerRun, h2] at h
          simp [sendErrorsOf, h]
    · simp [writerRun] at h

/-- A non-nil error reported by the group's `Wait` is one of the task
results. -/
theorem gWait_mem (l : List (Option GoError)) (e : GoError)
    (h : gWait l = some e) : some e ∈ l := by
  induction l with
  | nil => simp [gWait] at h
  | cons r rest ih =>
    rcases r with _ | x
    · simp [gWait] at h
      simp [List.mem_cons, ih h]
    · simp [gWait] at h
      simp [h]

/-! ## Claim theorems -/

/-- C1: after the Coordination Group drains, a non-nil group error is
returned by `Consume` unchanged; otherwise a `context.Canceled` terminal
context error is mapped to a Canceled-class status error, and any other
terminal context error value (possibly `nil`) is returned as-is. -/
theorem consume_exit_rule (gErr ctxErr : Option GoError) :
    (∀ e, gErr = some e → consumeExit gErr ctxErr = some e) ∧
    (gErr = none → ctxErr = some .ctxCanceled →
      consumeExit gErr ctxErr = some (.statusErr .canceled "context canceled")) ∧
    (gErr = none → ctxErr ≠ some .ctxCanceled →
      consumeExit gErr ctxErr = ctxErr) := by
  refine ⟨fun e he => ?_, fun hg hc => ?_, fun hg hc => ?_⟩
  · simp [consumeExit, he]
  · simp [consumeExit, hg, hc, GoError.errText]
  · simp [consumeExit, hg, hc]

theorem consume_exit_rule_witness :
    consumeExit (some errStartedTwice) none = some errStartedTwice ∧
    consumeExit none (some .ctxCanceled)
      = some (.statusErr .canceled "context canceled") ∧
    consumeExit none none = none :=
  ⟨(consume_exit_rule (some errStartedTwice) none).1 errStartedTwice rfl,
   (consume_exit_rule none (some .ctxCanceled)).2.1 rfl rfl,
   (consume_exit_rule none none).2.2 rfl (by decide)⟩

/-- C3: once a StartRequest has been delivered, a later StartRequest —
after any number of in-order delivered confirmations — makes the reader
task return the invalid-argument error `consumption already started`,
and the session output is independent of every later envelope (no
further processing). -/
theorem reader_second_start_violation
    (sr1 sr2 : StartConsumeRequest) (o1 o2 : Option Confirmation) (d : Bool)
    (mid rest : List RecvEvent) (hmid : confirmOnly mid = true) :
    readerRun false
        (.recvMsg ⟨some sr1, o1⟩ true :: (mid ++ .recvMsg ⟨some sr2, o2⟩ d :: rest))
      = ⟨some (some errStartedTwice), [sr1], confirmsOf mid⟩ := by
  have h := readerRun_confirmOnly_append mid (.recvMsg ⟨some sr2, o2⟩ d :: rest) hmid
  simp [readerRun, h]

theorem reader_second_start_violation_witness :
    readerRun false
        (.recvMsg ⟨some ⟨"orders", "c1", .oldest⟩, none⟩ true ::
          ([.recvMsg ⟨none, some ⟨"1"⟩⟩ true] ++
            .recvMsg ⟨some ⟨"orders", "c1", .oldest⟩, none⟩ true ::
              [.recvMsg ⟨none, none⟩ true]))
      = ⟨some (some errStartedTwice), [⟨"orders", "c1", .oldest⟩], [⟨"1"⟩]⟩ :=
  reader_second_start_violation ⟨"orders", "c1", .oldest⟩ ⟨"orders", "c1", .oldest⟩
    none none true [.recvMsg ⟨none, some ⟨"1"⟩⟩ true] [.recvMsg ⟨none, none⟩ true]
    (by decide)

/-- C4: a Confirmation envelope received before any StartRequest makes
the reader task return the invalid-argument error `invalid
confirmation` immediately, and in such a session the handler-invoker is
resolved by cancellation, so `HandleConsume` is never invoked and the
whole `Consume` call returns that error. -/
theorem reader_confirm_before_start
    (handler : consumerConfig → Option GoError) (c : Confirmation) (d : Bool)
    (rest : List RecvEvent) (we : List WriterEvent) (ctxErr : Option GoError)
    (hw : (writerRun we).result = some none) :
    readerRun false (.recvMsg ⟨none, some c⟩ d :: rest)
        = ⟨some (some errInvalidConfirm), [], []⟩ ∧
    (invokerRun handler .ctxDone).invokedWith = none ∧
    consumeRun handler (.recvMsg ⟨none, some c⟩ d :: rest) we .ctxDone ctxErr
        = some (some errInvalidConfirm) := by
  refine ⟨by simp [readerRun], rfl, ?_⟩
  simp [consumeRun, readerRun, hw, invokerRun, gWait, consumeExit]

theorem reader_confirm_before_start_witness :
    consumeRun (fun _ => none) [.recvMsg ⟨none, some ⟨"1"⟩⟩ true] [.ctxDone]
        .ctxDone (some .ctxCanceled)
      = some (some errInvalidConfirm) :=
  (reader_confirm_before_start (fun _ => none) ⟨"1"⟩ true [] [.ctxDone]
    (some .ctxCanceled) (by decide)).2.2

/-- C5: an envelope with neither variant set always makes the reader
task return the invalid-argument error `invalid consumer request - this
is possibly a bug in your client library`, in both the awaiting-start
and the active phase, regardless of anything that follows. -/
theorem reader_empty_envelope (started d : Bool) (rest : List RecvEvent) :
    readerRun started (.recvMsg ⟨none, none⟩ d :: rest)
      = ⟨some (some errInvalidRequest), [], []⟩ := by
  cases started <;> simp [readerRun]

/-- C2: when the StartRequest reaches the handler-invoker, the config
passed to `HandleConsume` carries the StartRequest's topic, consumer
and offset verbatim; a cancellation observation makes the writer (and
the reader at its forward point) return `nil` at its next suspension;
and when the handler returns a non-nil error while the other two tasks
return `nil`, the whole `Consume` call reports exactly the handler's
error. -/
theorem consume_handler_error_session
    (handler : consumerConfig → Option GoError) (sr : StartConsumeRequest)
    (e : GoError) (hh : handler (mkConsumerConfig sr) = some e)
    (re : List RecvEvent) (we : List WriterEvent) (ctxErr : Option GoError)
    (hr : (readerRun false re).result = some none)
    (hw : (writerRun we).result = some none) :
    (invokerRun handler (.gotStart sr)).invokedWith
        = some ⟨sr.consumer, sr.topic, sr.initialOffset⟩ ∧
    (∀ wrest, (writerRun (.ctxDone :: wrest)).result = some none) ∧
    (∀ c rrest,
      (readerRun true (.recvMsg ⟨none, some c⟩ false :: rrest)).result
        = some none) ∧
    consumeRun handler re we (.gotStart sr) ctxErr = some (some e) := by
  refine ⟨rfl, fun wrest => rfl, fun c rrest => by simp [readerRun], ?_⟩
  simp [consumeRun, hr, hw, invokerRun, hh, gWait, consumeExit]

theorem consume_handler_error_session_witness :
    consumeRun (fun _ => some (.other "backend failure"))
        [.recvErr (.other "context canceled")] [.ctxDone]
        (.gotStart ⟨"orders", "c1", .oldest⟩) none
      = some (some (.other "backend failure")) :=
  (consume_handler_error_session (fun _ => some (.other "backend failure"))
    ⟨"orders", "c1", .oldest⟩ (.other "backend failure") rfl
    [.recvErr (.other "context canceled")] [.ctxDone] none
    (by decide) (by decide)).2.2.2

/-- C6: end-of-stream on the network read makes the reader task return
`nil` from any state, and a session with a delivered StartRequest, any
confirmation-only steady state ending in EOF, a `nil`-returning
handler, a writer that exits by cancellation, and a non-canceled stream
context makes the whole `Consume` call return `nil`. -/
theorem consume_clean_eof_success
    (handler : consumerConfig → Option GoError) (sr : StartConsumeRequest)
    (hh : handler (mkConsumerConfig sr) = none)
    (mid : List RecvEvent) (hmid : confirmOnly mid = true)
    (we : List WriterEvent) (hw : (writerRun we).result = some none)
    (b : Bool) (rrest : List RecvEvent) :
    (readerRun b (.recvErr .eofErr :: rrest)).result = some none ∧
    consumeRun handler
        (.recvMsg ⟨some sr, none⟩ true :: (mid ++ [.recvErr .eofErr]))
        we (.gotStart sr) none
      = some none := by
  have hx := readerRun_confirmOnly_append mid [.recvErr .eofErr] hmid
  refine ⟨by cases b <;> simp [readerRun], ?_⟩
  simp [consumeRun, readerRun, hx, hw, invokerRun, hh, gWait, consumeExit]

theorem consume_clean_eof_success_witness :
    consumeRun (fun _ => none)
        (.recvMsg ⟨some ⟨"orders", "c1", .oldest⟩, none⟩ true ::
          ([.recvMsg ⟨none, some ⟨"1"⟩⟩ true] ++ [.recvErr .eofErr]))
        [.gotMsg ⟨"1", "payload"⟩ none, .ctxDone]
        (.gotStart ⟨"orders", "c1", .oldest⟩) none
      = some none :=
  (consume_clean_eof_success (fun _ => none) ⟨"orders", "c1", .oldest⟩ rfl
    [.recvMsg ⟨none, some ⟨"1"⟩⟩ true] (by decide)
    [.gotMsg ⟨"1", "payload"⟩ none, .ctxDone] (by decide) true []).2

/-- C7: under cancellation while awaiting the StartRequest, the reader
returns `nil` whether it observes the canceled read error or loses the
start-delivery race to `ctx.Done()`, the writer returns `nil`, the
handler-invoker returns `nil` without invoking `HandleConsume`, and the
whole `Consume` call reports the Canceled-class status error. -/
theorem consume_canceled_awaiting_start
    (handler : consumerConfig → Option GoError) (e : GoError)
    (he : goHasSuffix e.errText "context canceled" = true)
    (rrest rrest2 : List RecvEvent) (wrest : List WriterEvent)
    (sr : StartConsumeRequest) (o : Option Confirmation) :
    (readerRun false (.recvErr e :: rrest)).result = some none ∧
    (readerRun false (.recvMsg ⟨some sr, o⟩ false :: rrest2)).result
        = some none ∧
    (writerRun (.ctxDone :: wrest)).result = some none ∧
    invokerRun handler .ctxDone = ⟨none, none⟩ ∧
    consumeRun handler (.recvErr e :: rrest) (.ctxDone :: wrest) .ctxDone
        (some .ctxCanceled)
      = some (some (.statusErr .canceled "context canceled")) := by
  have hr : (readerRun false (.recvErr e :: rrest)).result = some none := by
    by_cases h1 : e = GoError.eofErr <;> simp [readerRun, h1, he]
  refine ⟨hr, by simp [readerRun], rfl, rfl, ?_⟩
  simp [consumeRun, hr, writerRun, invokerRun, gWait, consumeExit,
    GoError.errText]

theorem consume_canceled_awaiting_start_witness :
    consumeRun (fun _ => some (.other "handler must not run"))
        [.recvErr (.other "rpc error: code = Canceled desc = context canceled")]
        [.ctxDone] .ctxDone (some .ctxCanceled)
      = some (some (.statusErr .canceled "context canceled")) :=
  (consume_canceled_awaiting_start (fun _ => some (.other "handler must not run"))
    (.other "rpc error: code = Canceled desc = context canceled") (by decide)
    [] [] [] ⟨"orders", "c1", .oldest⟩ none).2.2.2.2

/-- C8: the writer task forwards handler-produced messages to the
network stream in exactly the order produced, with no drops and no
duplicates, while the reader task independently forwards any stream of
confirmations in exactly the order received. -/
theorem writer_preserves_order (ms : List Message) (cs : List Confirmation) :
    writerRun (ms.map (fun m => .gotMsg m none) ++ [.ctxDone])
        = ⟨some none, ms⟩ ∧
    readerRun true (cs.map (fun c => .recvMsg ⟨none, some c⟩ true))
        = ⟨none, [], cs⟩ := by
  constructor
  · induction ms with
    | nil => simp [writerRun]
    | cons m rest ih => simp [writerRun, ih]
  · induction cs with
    | nil => simp [readerRun]
    | cons c rest ih => simp [readerRun, ih]

/-- C9: any read or send error whose message text merely ends in
`context canceled` is treated by the reader and the writer as clean
termination (`nil` return), regardless of whether it originates from
this session's cancellation. -/
theorem canceled_text_clean_termination (e : GoError) (b : Bool)
    (he : goHasSuffix e.errText "context canceled" = true)
    (m : Message) (rrest : List RecvEvent) (wrest : List WriterEvent) :
    readerRun b (.recvErr e :: rrest) = ⟨some none, [], []⟩ ∧
    writerRun (.gotMsg m (some e) :: wrest) = ⟨some none, []⟩ := by
  by_cases h1 : e = GoError.eofErr
  · rw [h1] at he
    exact absurd he (by decide)
  · simp [readerRun, writerRun, h1, he]

theorem canceled_text_clean_termination_witness :
    readerRun false
        [.recvErr (.other "transport hiccup unrelated to this rpc: context canceled")]
      = ⟨some none, [], []⟩ ∧
    writerRun
        [.gotMsg ⟨"1", "payload"⟩
          (some (.other "transport hiccup unrelated to this rpc: context canceled"))]
      = ⟨some none, []⟩ :=
  canceled_text_clean_termination
    (.other "transport hiccup unrelated to this rpc: context canceled") false
    (by decide) ⟨"1", "payload"⟩ [] []

/-- C10: no code path of the bridge produces `errNotConnected`: in any
session whose external inputs (recv errors, send errors, handler
results) are not that value and whose stream context ends in one of the
context library's terminal values, the value returned by `Consume` is
never `errNotConnected`. -/
theorem consume_never_errNotConnected
    (handler : consumerConfig → Option GoError)
    (re : List RecvEvent) (we : List WriterEvent) (ie : InvokerEvent)
    (ctxErr : Option GoError) (r : Option GoError)
    (hh : ∀ conf, handler conf ≠ some errNotConnected)
    (hre : errNotConnected ∉ recvErrorsOf re)
    (hwe : errNotConnected ∉ sendErrorsOf we)
    (hctx : ctxErr = none ∨ ctxErr = some .ctxCanceled ∨
      ctxErr = some .ctxDeadlineExceeded)
    (h : consumeRun handler re we ie ctxErr = some r) :
    r ≠ some errNotConnected := by
  intro hbad
  subst hbad
  rcases hr : (readerRun false re).result with _ | r1
  · simp [consumeRun, hr] at h
  rcases hw : (writerRun we).result with _ | r2
  · simp [consumeRun, hr, hw] at h
  simp only [consumeRun, hr, hw] at h
  rcases hg : gWait [r1, r2, (invokerRun handler ie).result] with _ | ge
  · rw [hg] at h
    rcases hctx with hc | hc | hc <;>
      simp [consumeExit, hc, GoError.errText, errNotConnected] at h
  · rw [hg] at h
    simp only [consumeExit, Option.some.injEq] at h
    have hmem := gWait_mem _ _ hg
    rw [h] at hmem
    simp only [List.mem_cons, List.not_mem_nil, or_false] at hmem
    rcases hmem with h1 | h2 | h3
    · subst h1
      rcases readerRun_error_source false re errNotConnected hr
        with hin | hpv | hpv | hpv
      · exact hre hin
      all_goals simp [errNotConnected, errStartedTwice, errInvalidConfirm,
        errInvalidRequest] at hpv
    · subst h2
      exact hwe (writerRun_error_source we errNotConnected hw)
    · rcases ie with sr | _
      · exact hh (mkConsumerConfig sr) ((by simpa [invokerRun] using h3 :
          (some errNotConnected : Option GoError)
            = handler (mkConsumerConfig sr))).symm
      · simp [invokerRun] at h3

theorem consume_never_errNotConnected_witness :
    consumeRun (fun _ => none) [.recvErr .eofErr] [.ctxDone] .ctxDone none
        = some none ∧
    (none : Option GoError) ≠ some errNotConnected :=
  ⟨by decide,
   consume_never_errNotConnected (fun _ => none) [.recvErr .eofErr] [.ctxDone]
     .ctxDone none none (fun conf h => Option.noConfusion h) (by decide)
     (by decide) (Or.inl rfl) (by decide)⟩
